import Mathlib

/-!
Verification of `scripts/generate-icon.py` (the RedisLens icon generator).

The script draws a master icon with PIL primitives and exports it to the
fixed set of Tauri icon files.  The embedding below mirrors the script:

* `iconGeometry` computes every coordinate, radius and stroke width exactly
  as `draw_icon` does.  Python `int(x)` applied to the nonnegative products
  `size * fraction` is floor, so `int(size * 0.06)` is embedded as the exact
  integer division `size * 6 / 100`; at every size evaluated concretely in
  a theorem below the IEEE-754 evaluation of the Python expression yields
  the same integer.  Python `//` on a possibly negative numerator is floor
  division, embedded as `Int.fdiv`.
* The raster image is `PImage`: mode string, dimensions, and a total pixel
  map.  Each PIL primitive is embedded as `paint region color`: the region
  of a filled shape (rounded rectangle, polygon, ellipse) follows its exact
  geometry; the region of a stroked primitive (`line`, `arc`, ellipse
  outline) is a conservative superset of the pixels the rasterizer touches.
  The theorems about pixel values only sample pixels that are strictly
  outside every stroke region, where superset coverage and the exact
  rasterizer agree, and that are covered by at most fully opaque fills,
  where PIL's RGBA blending coincides with overwriting.
* The export phase of `main` manipulates images only through
  `Image.resize`; its image expressions are embedded as the inductive
  `ImgExpr` (LANCZOS resampling itself is left uninterpreted), and the
  filesystem effects (`os.makedirs(..., exist_ok=True)` and `save`) as a
  state transformer on `FS`.
-/

namespace RedisLens

/-- A pixel color, as PIL's 8-bit-per-channel RGBA tuples. -/
structure RGBA where
  r : Nat
  g : Nat
  b : Nat
  a : Nat
deriving DecidableEq

/-- An in-memory raster image: mode string, dimensions, and the pixel map.
The pixel map is total over `Int × Int`; only coordinates inside
`[0, width) × [0, height)` are meaningful. -/
structure PImage where
  mode : String
  width : Nat
  height : Nat
  px : Int → Int → RGBA

/-- `Image.new(mode, (w, h), color)`. -/
def imageNew (mode : String) (w h : Nat) (c : RGBA) : PImage :=
  { mode := mode, width := w, height := h, px := fun _ _ => c }

/-- Painting a drawing primitive: pixels inside `region` take the primitive's
color, all others keep their previous value.  Dimensions and mode are
untouched, exactly as PIL's in-place draw calls. -/
def paint (region : Int → Int → Bool) (c : RGBA) (img : PImage) : PImage :=
  { img with px := fun x y => if region x y then c else img.px x y }

/-- Squared Euclidean distance between `(x, y)` and `(cx, cy)`. -/
def sqDist (x y cx cy : Int) : Int :=
  (x - cx) * (x - cx) + (y - cy) * (y - cy)

/-- The disk of radius `r` around `(cx, cy)`: region of a filled
`draw.ellipse` with bounding box `[cx - r, cy - r, cx + r, cy + r]`. -/
def inDisk (cx cy rad x y : Int) : Bool :=
  decide (sqDist x y cx cy ≤ rad * rad)

/-- The closed annulus between radii `rInner` and `rOuter` around
`(cx, cy)`: a superset of the pixels of a stroked `draw.ellipse` outline or
a `draw.arc` with those radii. -/
def inRing (cx cy rOuter rInner x y : Int) : Bool :=
  decide (rInner * rInner ≤ sqDist x y cx cy ∧ sqDist x y cx cy ≤ rOuter * rOuter)

/-- The diamond with vertices `(cx, cy ± r)` and `(cx ± r, cy)` — the
polygon `draw_icon` passes to `draw.polygon` — is exactly the L1 ball of
radius `r` around `(cx, cy)`. -/
def inDiamond (cx cy rad x y : Int) : Bool :=
  decide (|x - cx| + |y - cy| ≤ rad)

/-- The rounded rectangle `draw.rounded_rectangle([x0, y0, x1, y1], radius)`:
inside the bounding box, and in one of the two central bands or within
`rad` of one of the four corner-arc centers. -/
def inRoundedRect (x0 y0 x1 y1 rad x y : Int) : Bool :=
  decide (x0 ≤ x ∧ x ≤ x1 ∧ y0 ≤ y ∧ y ≤ y1) &&
    (decide (x0 + rad ≤ x ∧ x ≤ x1 - rad) ||
     decide (y0 + rad ≤ y ∧ y ≤ y1 - rad) ||
     inDisk (x0 + rad) (y0 + rad) rad x y ||
     inDisk (x1 - rad) (y0 + rad) rad x y ||
     inDisk (x0 + rad) (y1 - rad) rad x y ||
     inDisk (x1 - rad) (y1 - rad) rad x y)

/-- Conservative region of a horizontal `draw.line` from `(x0, yc)` to
`(x1, yc)` of width `w`: the segment's bounding box inflated by `w`. -/
def inHStroke (x0 x1 yc w x y : Int) : Bool :=
  decide (x0 - w ≤ x ∧ x ≤ x1 + w ∧ yc - w ≤ y ∧ y ≤ yc + w)

/-- Conservative region of a `draw.line` from `(x0, y0)` to `(x1, y1)` of
width `w`: the segment's bounding box inflated by `w`. -/
def inBand (x0 y0 x1 y1 w x y : Int) : Bool :=
  decide (min x0 x1 - w ≤ x ∧ x ≤ max x0 x1 + w ∧
          min y0 y1 - w ≤ y ∧ y ≤ max y0 y1 + w)

/-- All coordinates, radii and stroke widths computed by `draw_icon`,
in order of appearance (lines 15-126 of the script). -/
structure IconGeometry where
  cx : Int
  cy : Int
  pad : Int
  radius : Int
  diamond_cx : Int
  diamond_cy : Int
  diamond_r : Int
  inner_r : Int
  line_w : Int
  lens_cx : Int
  lens_cy : Int
  lens_r : Int
  lens_outline_w : Int
  shine_r : Int
  shine_w : Int
  handle_start_x : Int
  handle_start_y : Int
  handle_end_x : Int
  handle_end_y : Int
  handle_w : Int
  cap_r : Int

/-- The geometry of `draw_icon(size)`: every `int(v * fraction)` of the
script (floor of a nonnegative product) is the corresponding exact integer
division, every `max(n, ...)` is `max`. -/
def iconGeometry (size : Nat) : IconGeometry :=
  let s : Int := size
  let pad := s * 6 / 100
  let radius := s * 22 / 100
  let diamond_cx := s * 42 / 100
  let diamond_cy := s * 44 / 100
  let diamond_r := s * 22 / 100
  let inner_r := diamond_r * 6 / 10
  let line_w := max 2 (s * 12 / 1000)
  let lens_cx := s * 52 / 100
  let lens_cy := s * 42 / 100
  let lens_r := s * 20 / 100
  let lens_outline_w := max 4 (s * 4 / 100)
  let shine_r := lens_r * 65 / 100
  let shine_w := max 2 (s * 18 / 1000)
  let handle_start_x := lens_cx + lens_r * 7 / 10
  let handle_start_y := lens_cy + lens_r * 7 / 10
  let handle_end_x := s * 78 / 100
  let handle_end_y := s * 78 / 100
  let handle_w := max 6 (s * 55 / 1000)
  let cap_r := handle_w * 6 / 10
  { cx := s / 2, cy := s / 2, pad := pad, radius := radius,
    diamond_cx := diamond_cx, diamond_cy := diamond_cy,
    diamond_r := diamond_r, inner_r := inner_r, line_w := line_w,
    lens_cx := lens_cx, lens_cy := lens_cy, lens_r := lens_r,
    lens_outline_w := lens_outline_w, shine_r := shine_r, shine_w := shine_w,
    handle_start_x := handle_start_x, handle_start_y := handle_start_y,
    handle_end_x := handle_end_x, handle_end_y := handle_end_y,
    handle_w := handle_w, cap_r := cap_r }

/-- The loop header `for offset in [-diamond_r // 3, 0, diamond_r // 3]`.
Python `//` is floor division, i.e. `Int.fdiv`. -/
def chordOffsets (diamond_r : Int) : List Int :=
  [Int.fdiv (-diamond_r) 3, 0, Int.fdiv diamond_r 3]

/-- One horizontal chord drawn on the diamond: endpoints `(x0, y)` and
`(x1, y)`, stroke width `w`. -/
structure Chord where
  x0 : Int
  x1 : Int
  y : Int
  w : Int
deriving DecidableEq

/-- The body of the chord loop (lines 61-72): at vertical offset `offset`
from the diamond center, the chord has `half_width = diamond_r - |offset|`
and is drawn, inset by `line_w` on each end, only when `half_width > 0`. -/
def chordAt (geom : IconGeometry) (offset : Int) : Option Chord :=
  let y := geom.diamond_cy + offset
  let dy : Int := offset.natAbs
  let half_width := geom.diamond_r - dy
  if 0 < half_width then
    some { x0 := geom.diamond_cx - half_width + geom.line_w,
           x1 := geom.diamond_cx + half_width - geom.line_w,
           y := y, w := geom.line_w }
  else
    none

/-- The chords actually drawn by the loop. -/
def chordsOf (geom : IconGeometry) : List Chord :=
  (chordOffsets geom.diamond_r).filterMap (chordAt geom)

/-- Painting one chord with the low-opacity white stroke. -/
def paintChord (col : RGBA) (img : PImage) (c : Chord) : PImage :=
  paint (inHStroke c.x0 c.x1 c.y c.w) col img

/-- `draw_icon(size)`: the full drawing sequence of the script, in source
order — transparent RGBA canvas, rounded-square background, diamond, inner
highlight diamond, the three chords, lens outline, lens fill, shine arc,
handle, handle cap. -/
def draw_icon (size : Nat) : PImage :=
  let geom := iconGeometry size
  let s : Int := size
  let img := imageNew "RGBA" size size ⟨0, 0, 0, 0⟩
  let img := paint (inRoundedRect geom.pad geom.pad (s - geom.pad) (s - geom.pad) geom.radius)
    ⟨24, 24, 32, 255⟩ img
  let img := paint (inDiamond geom.diamond_cx geom.diamond_cy geom.diamond_r)
    ⟨220, 60, 50, 255⟩ img
  let img := paint (inDiamond geom.diamond_cx geom.diamond_cy geom.inner_r)
    ⟨240, 90, 75, 255⟩ img
  let img := (chordsOf geom).foldl (paintChord ⟨255, 255, 255, 80⟩) img
  let img := paint (inRing geom.lens_cx geom.lens_cy geom.lens_r (geom.lens_r - geom.lens_outline_w))
    ⟨140, 200, 255, 255⟩ img
  let img := paint (inDisk geom.lens_cx geom.lens_cy (geom.lens_r - geom.lens_outline_w))
    ⟨140, 200, 255, 35⟩ img
  let img := paint (inRing geom.lens_cx geom.lens_cy geom.shine_r (geom.shine_r - geom.shine_w))
    ⟨255, 255, 255, 120⟩ img
  let img := paint (inBand geom.handle_start_x geom.handle_start_y geom.handle_end_x
      geom.handle_end_y geom.handle_w)
    ⟨180, 190, 210, 255⟩ img
  paint (inDisk geom.handle_end_x geom.handle_end_y geom.cap_r) ⟨160, 170, 190, 255⟩ img

/-- The master icon size, `SIZE = 1024`. -/
def SIZE : Nat := 1024

/-- An image value of the export phase of `main`.  `master s` is the
in-memory image `draw_icon(s)`; `resize src w h` is
`src.resize((w, h), Image.LANCZOS)` (the LANCZOS resampling itself is left
uninterpreted — only dimensions and provenance are needed). -/
inductive ImgExpr where
  | master (size : Nat)
  | resize (src : ImgExpr) (w h : Nat)
deriving DecidableEq

/-- Width in pixels of an export-phase image. -/
def ImgExpr.width : ImgExpr → Nat
  | .master s => s
  | .resize _ w _ => w

/-- Height in pixels of an export-phase image. -/
def ImgExpr.height : ImgExpr → Nat
  | .master s => s
  | .resize _ _ h => h

/-- The content of one output file: a standalone PNG, a multi-size ICO
container, or an ICNS container. -/
inductive FileContent where
  | png (img : ImgExpr)
  | ico (imgs : List ImgExpr)
  | icns (img : ImgExpr)
deriving DecidableEq

/-- The images embedded in a file's content. -/
def contentImages : FileContent → List ImgExpr
  | .png i => [i]
  | .ico l => l
  | .icns i => [i]

/-- The pixel dimensions of each image embedded in a file's content. -/
def contentDims (c : FileContent) : List (Nat × Nat) :=
  (contentImages c).map fun i => (i.width, i.height)

/-- The `sizes` table of `main`: filename to target size for the plain PNG
outputs. -/
def pngSizes : List (String × Nat) :=
  [("32x32.png", 32), ("128x128.png", 128), ("128x128@2x.png", 256)]

/-- `ico_sizes`: the sizes embedded in `icon.ico`. -/
def ico_sizes : List Nat := [16, 24, 32, 48, 64, 128, 256]

/-- The export phase of `main` (lines 144-177), applied to a master image:
the ordered list of `(filename, content)` artifacts together with the lines
printed to standard output.  Every image written is a LANCZOS resize of the
given master. -/
def exportPhase (master : ImgExpr) : List (String × FileContent) × List String :=
  let pngArtifacts := pngSizes.map fun fz =>
    (fz.1, FileContent.png (ImgExpr.resize master fz.2 fz.2))
  let pngMessages := pngSizes.map fun fz =>
    "  Saved " ++ fz.1 ++ " (" ++ toString fz.2 ++ "x" ++ toString fz.2 ++ ")"
  let ico_images := ico_sizes.map fun sz => ImgExpr.resize master sz sz
  let icoArtifact := ("icon.ico", FileContent.ico ico_images)
  let icoMessage := "  Saved icon.ico (" ++ toString ico_sizes.length ++ " sizes)"
  let icnsArtifact := ("icon.icns", FileContent.icns (ImgExpr.resize master 512 512))
  let icnsMessage := "  Saved icon.icns"
  let webArtifact := ("icon.png", FileContent.png (ImgExpr.resize master 512 512))
  let webMessage := "  Saved icon.png (512x512)"
  (pngArtifacts ++ [icoArtifact, icnsArtifact, webArtifact],
   pngMessages ++ [icoMessage, icnsMessage, webMessage, "\nAll icons generated!"])

/-- The observable outcome of one run of `main`: the artifacts written (in
order), the standard-output lines, and the process exit code. -/
structure RunResult where
  artifacts : List (String × FileContent)
  stdout : List String
  exitCode : Nat

/-- `main()`: generates the master at `SIZE` and runs the export phase over
it; the straight-line script reaches the end and the process exits 0. -/
def main : RunResult :=
  let ep := exportPhase (ImgExpr.master SIZE)
  { artifacts := ep.1, stdout := ep.2, exitCode := 0 }

/-- A filesystem path, as produced by `os.path.join(icon_dir, filename)`:
the directory part and the filename part. -/
structure Path where
  dir : String
  base : String
deriving DecidableEq

/-- `os.path.join` of the icon directory and a filename. -/
def pathJoin (d fn : String) : Path := ⟨d, fn⟩

/-- The filesystem state visible to the script: the set of existing
directories and the files with their contents. -/
structure FS where
  dirs : List String
  files : List (Path × FileContent)

/-- `os.makedirs(d, exist_ok=True)`: creates the directory if missing and
never fails when it already exists. -/
def makedirs (d : String) (fs : FS) : FS :=
  if d ∈ fs.dirs then fs else { fs with dirs := d :: fs.dirs }

/-- `image.save(path, ...)`: writes the file at `path`, replacing any
existing file there. -/
def saveFile (p : Path) (c : FileContent) (fs : FS) : FS :=
  { fs with files := (p, c) :: fs.files.filter fun e => decide (e.1 ≠ p) }

/-- The content currently stored at `p`, if any. -/
def lookupFile (fs : FS) (p : Path) : Option FileContent :=
  (fs.files.find? fun e => decide (e.1 = p)).map Prod.snd

/-- The filesystem effect of one run of `main` against icon directory
`icon_dir`: `makedirs` followed by saving every artifact in order. -/
def runMain (icon_dir : String) (fs : FS) : FS :=
  let fs1 := makedirs icon_dir fs
  main.artifacts.foldl (fun st e => saveFile (pathJoin icon_dir e.1) e.2 st) fs1

/-! Helper lemmas about the geometry record and image primitives. -/

theorem iconGeometry_diamond_r (size : Nat) :
    (iconGeometry size).diamond_r = (size : Int) * 22 / 100 := rfl

theorem iconGeometry_line_w (size : Nat) :
    (iconGeometry size).line_w = max 2 ((size : Int) * 12 / 1000) := rfl

theorem iconGeometry_lens_outline_w (size : Nat) :
    (iconGeometry size).lens_outline_w = max 4 ((size : Int) * 4 / 100) := rfl

theorem iconGeometry_shine_w (size : Nat) :
    (iconGeometry size).shine_w = max 2 ((size : Int) * 18 / 1000) := rfl

theorem iconGeometry_handle_w (size : Nat) :
    (iconGeometry size).handle_w = max 6 ((size : Int) * 55 / 1000) := rfl

theorem diamond_r_nonneg (size : Nat) : 0 ≤ (iconGeometry size).diamond_r := by
  rw [iconGeometry_diamond_r]
  exact Int.ediv_nonneg (by positivity) (by norm_num)

theorem paint_width (region : Int → Int → Bool) (c : RGBA) (img : PImage) :
    (paint region c img).width = img.width := rfl

theorem paint_height (region : Int → Int → Bool) (c : RGBA) (img : PImage) :
    (paint region c img).height = img.height := rfl

theorem paint_mode (region : Int → Int → Bool) (c : RGBA) (img : PImage) :
    (paint region c img).mode = img.mode := rfl

theorem foldl_paintChord_width (col : RGBA) (l : List Chord) (img : PImage) :
    (l.foldl (paintChord col) img).width = img.width := by
  induction l generalizing img with
  | nil => rfl
  | cons c t ih => rw [List.foldl_cons]; exact ih _

theorem foldl_paintChord_height (col : RGBA) (l : List Chord) (img : PImage) :
    (l.foldl (paintChord col) img).height = img.height := by
  induction l generalizing img with
  | nil => rfl
  | cons c t ih => rw [List.foldl_cons]; exact ih _

theorem foldl_paintChord_mode (col : RGBA) (l : List Chord) (img : PImage) :
    (l.foldl (paintChord col) img).mode = img.mode := by
  induction l generalizing img with
  | nil => rfl
  | cons c t ih => rw [List.foldl_cons]; exact ih _

/-- C1: for every positive integer `size`, `draw_icon(size)` returns an
image of exactly `size × size` pixels in mode `"RGBA"`, i.e. with an alpha
channel. -/
theorem draw_icon_size_and_mode (size : Nat) (_h : 0 < size) :
    (draw_icon size).width = size ∧ (draw_icon size).height = size ∧
    (draw_icon size).mode = "RGBA" := by
  refine ⟨?_, ?_, ?_⟩ <;>
    simp [draw_icon, paint_width, paint_height, paint_mode,
      foldl_paintChord_width, foldl_paintChord_height, foldl_paintChord_mode, imageNew]

/-- Witness for C1 at the master size 1024. -/
theorem draw_icon_size_and_mode_witness :
    0 < 1024 ∧
    ((draw_icon 1024).width = 1024 ∧ (draw_icon 1024).height = 1024 ∧
     (draw_icon 1024).mode = "RGBA") :=
  ⟨by decide, draw_icon_size_and_mode 1024 (by decide)⟩

/-- C10: the stroke widths of `draw_icon` are bounded below by absolute
pixel minimums at every positive size: chord stroke at least 2, lens
outline at least 4, shine arc at least 2, handle at least 6. -/
theorem stroke_width_minimums (size : Nat) (_h : 0 < size) :
    2 ≤ (iconGeometry size).line_w ∧ 4 ≤ (iconGeometry size).lens_outline_w ∧
    2 ≤ (iconGeometry size).shine_w ∧ 6 ≤ (iconGeometry size).handle_w := by
  rw [iconGeometry_line_w, iconGeometry_lens_outline_w, iconGeometry_shine_w,
    iconGeometry_handle_w]
  exact ⟨le_max_left _ _, le_max_left _ _, le_max_left _ _, le_max_left _ _⟩

/-- Witness for C10 at size 1. -/
theorem stroke_width_minimums_witness :
    0 < 1 ∧
    (2 ≤ (iconGeometry 1).line_w ∧ 4 ≤ (iconGeometry 1).lens_outline_w ∧
     2 ≤ (iconGeometry 1).shine_w ∧ 6 ≤ (iconGeometry 1).handle_w) :=
  ⟨by decide, stroke_width_minimums 1 (by decide)⟩

/-- C3 counterexample: the chord stroke width is not `size × constant
fraction` and does not scale linearly with `size`.  At size 100 the stroke
is 2 pixels although `⌊100 × 0.012⌋ = 1`, and doubling the size to 200
leaves the stroke at 2 pixels instead of doubling it. -/
theorem stroke_width_not_proportional :
    (iconGeometry 100).line_w = 2 ∧ (iconGeometry 200).line_w = 2 ∧
    (iconGeometry 100).line_w ≠ (100 : Int) * 12 / 1000 ∧
    (iconGeometry 200).line_w ≠ 2 * (iconGeometry 100).line_w := by
  decide

/-- C3 amended: all offsets and radii are `⌊size × fraction⌋`, but the four
stroke widths are `max(minimum, ⌊size × fraction⌋)`; only for sizes where
every minimum is inactive (167 and above) is every stroke width the pure
proportional value `⌊size × fraction⌋`. -/
theorem stroke_widths_proportional_above_167 (size : Nat) (h : 167 ≤ size) :
    (iconGeometry size).line_w = (size : Int) * 12 / 1000 ∧
    (iconGeometry size).lens_outline_w = (size : Int) * 4 / 100 ∧
    (iconGeometry size).shine_w = (size : Int) * 18 / 1000 ∧
    (iconGeometry size).handle_w = (size : Int) * 55 / 1000 := by
  have hs : (167 : Int) ≤ (size : Int) := by exact_mod_cast h
  refine ⟨?_, ?_, ?_, ?_⟩
  · rw [iconGeometry_line_w]; exact max_eq_right (by omega)
  · rw [iconGeometry_lens_outline_w]; exact max_eq_right (by omega)
  · rw [iconGeometry_shine_w]; exact max_eq_right (by omega)
  · rw [iconGeometry_handle_w]; exact max_eq_right (by omega)

/-- Witness for the amended C3 at the master size 1024. -/
theorem stroke_widths_proportional_above_167_witness :
    167 ≤ 1024 ∧
    ((iconGeometry 1024).line_w = (1024 : Int) * 12 / 1000 ∧
     (iconGeometry 1024).lens_outline_w = (1024 : Int) * 4 / 100 ∧
     (iconGeometry 1024).shine_w = (1024 : Int) * 18 / 1000 ∧
     (iconGeometry 1024).handle_w = (1024 : Int) * 55 / 1000) :=
  ⟨by decide, stroke_widths_proportional_above_167 1024 (by decide)⟩

/-- C5 counterexample: at size 32 the diamond radius is 7 and the chord
offsets are `[-3, 0, 2]` — Python floor division rounds `-7 // 3` to `-3`
but `7 // 3` to `2` — so the upper and lower chords do not have offsets of
equal magnitude and no symmetric list `[-m, 0, m]` matches. -/
theorem chord_offsets_asymmetric_at_32 :
    (iconGeometry 32).diamond_r = 7 ∧
    chordOffsets (iconGeometry 32).diamond_r = [-3, 0, 2] ∧
    ¬ ∃ m : Int, chordOffsets (iconGeometry 32).diamond_r = [-m, 0, m] := by
  refine ⟨by decide, by decide, ?_⟩
  rintro ⟨m, hm⟩
  have h32 : chordOffsets (iconGeometry 32).diamond_r = [-3, 0, 2] := by decide
  rw [h32] at hm
  simp only [List.cons.injEq, and_true] at hm
  omega

/-- C5 amended: the chord offsets are `[⌊-r/3⌋, 0, ⌊r/3⌋]`; since Python's
`//` is floor division, the upper offset has magnitude `⌈r/3⌉ = (r + 2)/3`,
which equals the lower magnitude `r/3` exactly when `3 ∣ r`. -/
theorem chord_offsets_floor_div (size : Nat) :
    chordOffsets (iconGeometry size).diamond_r =
      [-(((iconGeometry size).diamond_r + 2) / 3), 0, (iconGeometry size).diamond_r / 3] ∧
    ((((iconGeometry size).diamond_r + 2) / 3 = (iconGeometry size).diamond_r / 3) ↔
      (iconGeometry size).diamond_r % 3 = 0) := by
  have hr : 0 ≤ (iconGeometry size).diamond_r := diamond_r_nonneg size
  constructor
  · simp only [chordOffsets, Int.fdiv_eq_ediv _ (by norm_num : (0 : Int) ≤ 3),
      List.cons.injEq, and_true]
    omega
  · omega

theorem length_filterMap_eq_length_filter {A B : Type} (f : A → Option B)
    (p : A → Bool) (hf : ∀ a, (f a).isSome = p a) :
    ∀ l : List A, (l.filterMap f).length = (l.filter p).length := by
  intro l
  induction l with
  | nil => rfl
  | cons a t ih =>
    cases hfa : f a with
    | none =>
      have hpa : p a = false := by rw [← hf a, hfa]; rfl
      simp only [List.filterMap_cons, hfa]
      rw [List.filter_cons_of_neg (by simp [hpa]), ih]
    | some b =>
      have hpa : p a = true := by rw [← hf a, hfa]; rfl
      simp only [List.filterMap_cons, hfa]
      rw [List.filter_cons_of_pos (by simp [hpa]), List.length_cons, List.length_cons, ih]

/-- C4: every chord the loop draws sits at one of the loop's offsets, is
drawn only when its half-width `diamond_r - |offset|` is positive, and its
endpoints are the chord's half-width inset by the stroke width on each end;
offsets whose half-width is non-positive contribute no chord, so the number
of chords equals the number of offsets with positive half-width. -/
theorem chord_halfwidth_spec (size : Nat) :
    (∀ c ∈ chordsOf (iconGeometry size),
      ∃ offset ∈ chordOffsets (iconGeometry size).diamond_r,
        0 < (iconGeometry size).diamond_r - (offset.natAbs : Int) ∧
        c.y = (iconGeometry size).diamond_cy + offset ∧
        c.x0 = (iconGeometry size).diamond_cx -
          ((iconGeometry size).diamond_r - (offset.natAbs : Int)) +
          (iconGeometry size).line_w ∧
        c.x1 = (iconGeometry size).diamond_cx +
          ((iconGeometry size).diamond_r - (offset.natAbs : Int)) -
          (iconGeometry size).line_w) ∧
    (chordsOf (iconGeometry size)).length =
      ((chordOffsets (iconGeometry size).diamond_r).filter
        (fun o => decide (0 < (iconGeometry size).diamond_r - (o.natAbs : Int)))).length := by
  constructor
  · intro c hc
    simp only [chordsOf] at hc
    obtain ⟨o, ho, hco⟩ := List.mem_filterMap.mp hc
    refine ⟨o, ho, ?_⟩
    unfold chordAt at hco
    dsimp only at hco
    split at hco
    · obtain rfl : _ = c := Option.some.inj hco
      exact ⟨by assumption, rfl, rfl, rfl⟩
    · exact absurd hco (by simp)
  · have hf : ∀ o : Int, (chordAt (iconGeometry size) o).isSome =
        decide (0 < (iconGeometry size).diamond_r - (o.natAbs : Int)) := by
      intro o
      unfold chordAt
      dsimp only
      by_cases hcond : 0 < (iconGeometry size).diamond_r - (o.natAbs : Int)
      · rw [if_pos hcond, Option.isSome_some]; exact (decide_eq_true hcond).symm
      · rw [if_neg hcond, Option.isSome_none]; exact (decide_eq_false hcond).symm
    exact length_filterMap_eq_length_filter _ _ hf _

/-- Witness for C4: the first chord of the master icon (size 1024, diamond
radius 225, offset -75, half-width 150, stroke 12). -/
theorem chord_halfwidth_spec_witness :
    ∃ offset ∈ chordOffsets (iconGeometry 1024).diamond_r,
      0 < (iconGeometry 1024).diamond_r - (offset.natAbs : Int) ∧
      (375 : Int) = (iconGeometry 1024).diamond_cy + offset ∧
      (292 : Int) = (iconGeometry 1024).diamond_cx -
        ((iconGeometry 1024).diamond_r - (offset.natAbs : Int)) +
        (iconGeometry 1024).line_w ∧
      (568 : Int) = (iconGeometry 1024).diamond_cx +
        ((iconGeometry 1024).diamond_r - (offset.natAbs : Int)) -
        (iconGeometry 1024).line_w :=
  (chord_halfwidth_spec 1024).1 ⟨292, 568, 375, 12⟩ (by decide)

/-- C6 counterexample: in the image returned by `draw_icon(1024)` not every
pixel is opaque — the canvas is created fully transparent and the corner
pixel `(0, 0)` lies outside the rounded-square background (inset by
`pad = 61`) and outside every other primitive, so its alpha stays 0. -/
theorem not_all_pixels_opaque :
    ¬ ∀ x y : Int, 0 ≤ x → x < 1024 → 0 ≤ y → y < 1024 →
      ((draw_icon 1024).px x y).a = 255 := by
  intro hall
  have h0 := hall 0 0 (by decide) (by decide) (by decide) (by decide)
  have hz : ((draw_icon 1024).px 0 0).a = 0 := by decide
  omega

/-- C6 amended: the background fill itself is fully opaque, but pixels
outside the rounded-square background keep alpha 0: at the master size the
corner pixel `(0, 0)` is fully transparent while the pixel `(100, 512)`,
covered by the background fill and by no later primitive, carries the
opaque dark-slate background color. -/
theorem background_opacity_amended :
    (draw_icon 1024).px 0 0 = ⟨0, 0, 0, 0⟩ ∧
    (draw_icon 1024).px 100 512 = ⟨24, 24, 32, 255⟩ :=
  ⟨by decide, by decide⟩

/-- C2: running `main` with defaults produces exactly the six named
artifacts with the stated dimensions (the ICO embedding the seven variants
16-256, the ICNS built from a 512×512 resize), prints six "Saved" lines
followed by the success banner, and exits 0. -/
theorem main_end_to_end :
    main.artifacts.map (fun e => (e.1, contentDims e.2)) =
      [("32x32.png", [(32, 32)]), ("128x128.png", [(128, 128)]),
       ("128x128@2x.png", [(256, 256)]),
       ("icon.ico",
        [(16, 16), (24, 24), (32, 32), (48, 48), (64, 64), (128, 128), (256, 256)]),
       ("icon.icns", [(512, 512)]), ("icon.png", [(512, 512)])] ∧
    main.stdout =
      ["  Saved 32x32.png (32x32)", "  Saved 128x128.png (128x128)",
       "  Saved 128x128@2x.png (256x256)", "  Saved icon.ico (7 sizes)",
       "  Saved icon.icns", "  Saved icon.png (512x512)",
       "\nAll icons generated!"] ∧
    (main.stdout.filter fun l => decide (l.data.take 7 = "  Saved".data)).length = 6 ∧
    main.exitCode = 0 :=
  ⟨by decide, by decide, by decide, rfl⟩

/-- C7: the export phase is deterministic — two runs against equal master
images produce equal artifact lists and equal output, since the exporter is
a function of the master image alone. -/
theorem exportPhase_deterministic (m₁ m₂ : ImgExpr) (h : m₁ = m₂) :
    exportPhase m₁ = exportPhase m₂ := by rw [h]

/-- Witness for C7 at the actual master image. -/
theorem exportPhase_deterministic_witness :
    exportPhase (ImgExpr.master SIZE) = exportPhase (ImgExpr.master SIZE) :=
  exportPhase_deterministic (ImgExpr.master SIZE) (ImgExpr.master SIZE) rfl

/-- C8: every image embedded in every artifact `main` writes is a resize of
the single master `draw_icon(SIZE)`; no output is drawn from scratch at its
own size. -/
theorem outputs_derived_from_master :
    ∀ e ∈ main.artifacts, ∀ i ∈ contentImages e.2,
      ∃ sz : Nat, i = ImgExpr.resize (ImgExpr.master SIZE) sz sz := by
  intro e he i hi
  simp [main, exportPhase, pngSizes, ico_sizes] at he
  rcases he with rfl | rfl | rfl | rfl | rfl | rfl <;>
    simp only [contentImages, List.mem_cons, List.mem_singleton,
      List.not_mem_nil, or_false] at hi
  · exact ⟨32, hi⟩
  · exact ⟨128, hi⟩
  · exact ⟨256, hi⟩
  · rcases hi with rfl | rfl | rfl | rfl | rfl | rfl | rfl
    exacts [⟨16, rfl⟩, ⟨24, rfl⟩, ⟨32, rfl⟩, ⟨48, rfl⟩, ⟨64, rfl⟩, ⟨128, rfl⟩, ⟨256, rfl⟩]
  · exact ⟨512, hi⟩
  · exact ⟨512, hi⟩

/-- Witness for C8: the first artifact's image. -/
theorem outputs_derived_from_master_witness :
    ∃ sz : Nat, ImgExpr.resize (ImgExpr.master SIZE) 32 32 =
      ImgExpr.resize (ImgExpr.master SIZE) sz sz :=
  outputs_derived_from_master
    ("32x32.png", FileContent.png (ImgExpr.resize (ImgExpr.master SIZE) 32 32))
    (by decide) (ImgExpr.resize (ImgExpr.master SIZE) 32 32) (by decide)

/-! Helper lemmas for the filesystem model. -/

theorem saveFile_dirs (p : Path) (c : FileContent) (fs : FS) :
    (saveFile p c fs).dirs = fs.dirs := rfl

theorem foldl_saveFile_dirs (d : String) (l : List (String × FileContent)) (fs : FS) :
    (l.foldl (fun st e => saveFile (pathJoin d e.1) e.2 st) fs).dirs = fs.dirs := by
  induction l generalizing fs with
  | nil => rfl
  | cons a t ih => rw [List.foldl_cons]; exact ih _

theorem mem_makedirs (d : String) (fs : FS) : d ∈ (makedirs d fs).dirs := by
  unfold makedirs
  split
  · assumption
  · exact List.mem_cons_self _ _

theorem lookupFile_saveFile_self (p : Path) (c : FileContent) (fs : FS) :
    lookupFile (saveFile p c fs) p = some c := by
  unfold lookupFile saveFile
  rw [List.find?_cons_of_pos _ (by simp)]
  rfl

theorem find?_filter_ne (l : List (Path × FileContent)) (p q : Path) (hpq : p ≠ q) :
    (l.filter fun e => decide (e.1 ≠ q)).find? (fun e => decide (e.1 = p)) =
    l.find? (fun e => decide (e.1 = p)) := by
  induction l with
  | nil => rfl
  | cons a t ih =>
    by_cases haq : a.1 = q
    · have hap : ¬(a.1 = p) := fun hh => hpq (by rw [← hh]; exact haq)
      rw [List.filter_cons_of_neg (by simp [haq]),
        List.find?_cons_of_neg _ (by simp [hap]), ih]
    · by_cases hap : a.1 = p
      · rw [List.filter_cons_of_pos (by simp [haq]),
          List.find?_cons_of_pos _ (by simp [hap]),
          List.find?_cons_of_pos _ (by simp [hap])]
      · rw [List.filter_cons_of_pos (by simp [haq]),
          List.find?_cons_of_neg _ (by simp [hap]),
          List.find?_cons_of_neg _ (by simp [hap]), ih]

theorem lookupFile_saveFile_ne (q p : Path) (c : FileContent) (fs : FS) (h : q ≠ p) :
    lookupFile (saveFile q c fs) p = lookupFile fs p := by
  unfold lookupFile saveFile
  rw [List.find?_cons_of_neg _ (by simp [h]), find?_filter_ne _ _ _ (Ne.symm h)]

theorem lookupFile_foldl_save_of_ne (d : String) (t : List (String × FileContent))
    (fs : FS) (p : Path) (hp : ∀ e ∈ t, pathJoin d e.1 ≠ p) :
    lookupFile (t.foldl (fun st e => saveFile (pathJoin d e.1) e.2 st) fs) p =
    lookupFile fs p := by
  induction t generalizing fs with
  | nil => rfl
  | cons a t ih =>
    rw [List.foldl_cons, ih _ (fun e he => hp e (List.mem_cons_of_mem _ he))]
    exact lookupFile_saveFile_ne _ _ _ _ (hp a (List.mem_cons_self _ _))

theorem lookupFile_foldl_save (d : String) (l : List (String × FileContent)) (fs : FS)
    (hnd : l.Pairwise fun a b => a.1 ≠ b.1) :
    ∀ e ∈ l, lookupFile (l.foldl (fun st e => saveFile (pathJoin d e.1) e.2 st) fs)
      (pathJoin d e.1) = some e.2 := by
  induction l generalizing fs with
  | nil => intro e he; exact absurd he (List.not_mem_nil _)
  | cons a t ih =>
    intro e he
    rw [List.foldl_cons]
    rcases List.mem_cons.mp he with rfl | het
    · have hkeys : ∀ x ∈ t, pathJoin d x.1 ≠ pathJoin d e.1 := by
        intro x hx heq
        exact (List.pairwise_cons.mp hnd).1 x hx (congrArg Path.base heq).symm
      rw [lookupFile_foldl_save_of_ne d t _ _ hkeys]
      exact lookupFile_saveFile_self _ _ _
    · exact ih _ (List.pairwise_cons.mp hnd).2 e het

/-- C9: running the generator against a filesystem where the output
directory is missing creates the directory and writes every artifact; the
content found at each target path afterwards is the newly written one
whatever was there before, i.e. existing files are overwritten. -/
theorem makedirs_creates_and_overwrites (icon_dir : String) (fs : FS)
    (_h : icon_dir ∉ fs.dirs) :
    icon_dir ∈ (runMain icon_dir fs).dirs ∧
    ∀ e ∈ main.artifacts,
      lookupFile (runMain icon_dir fs) (pathJoin icon_dir e.1) = some e.2 := by
  constructor
  · simp only [runMain]
    rw [foldl_saveFile_dirs]
    exact mem_makedirs _ _
  · intro e he
    simp only [runMain]
    exact lookupFile_foldl_save icon_dir main.artifacts (makedirs icon_dir fs)
      (by decide) e he

/-- Witness for C9: an empty filesystem without the icon directory. -/
theorem makedirs_creates_and_overwrites_witness :
    "icons" ∉ (FS.mk [] []).dirs ∧
    ("icons" ∈ (runMain "icons" (FS.mk [] [])).dirs ∧
     ∀ e ∈ main.artifacts,
       lookupFile (runMain "icons" (FS.mk [] [])) (pathJoin "icons" e.1) = some e.2) :=
  ⟨by simp, makedirs_creates_and_overwrites "icons" (FS.mk [] []) (by simp)⟩

end RedisLens
